import Mathlib

/-!
Verification development for the Cargills press-monitoring service (`app.py`).

The Python source is shallowly embedded: pure helpers become Lean functions,
the scan loop becomes explicit state passing over the list of pending
articles, fallible operations (HTTP requests, the metadata index access,
the commit) are represented with `Except` / explicit success flags, and the
external world (search API, SMTP transport, clock) is passed in as explicit
parameters.  Machine-level concerns do not arise: all data is strings,
lists and (unbounded, signed) timestamps.
-/

namespace Cargills

/-! ## URL parsing (model of `urllib.parse.urlparse(url).netloc`)

`urlparse` recognises a leading `scheme:` (a letter followed by
letters/digits/`+`/`-`/`.` and a colon); the netloc is present only when the
remainder starts with `//`, and extends to the next `/`, `?` or `#`. -/

/-- Remainder of the input after a scheme terminated by `:`; `none` when the
run of scheme characters is not terminated by a colon. -/
def schemeRest : List Char → Option (List Char)
  | [] => none
  | ':' :: r => some r
  | c :: r =>
    if c.isAlphanum || c = '+' || c = '-' || c = '.' then schemeRest r else none

/-- Drop a leading `scheme:` when one is present (first char must be a letter). -/
def dropScheme (s : List Char) : List Char :=
  match s with
  | [] => []
  | c :: rest =>
    if c.isAlpha then
      match schemeRest rest with
      | some r => r
      | none => s
    else s

/-- Characters of the netloc: everything up to the next `/`, `?` or `#`. -/
def takeTill : List Char → List Char
  | [] => []
  | c :: r => if c = '/' || c = '?' || c = '#' then [] else c :: takeTill r

/-- `urlparse(url).netloc` as a character list (empty when the input has no
`//` after the optional scheme). -/
def netlocOf (s : List Char) : List Char :=
  match dropScheme s with
  | '/' :: '/' :: r => takeTill r
  | _ => []

/-- Python's `str.replace("www.", "")`: removes every (non-overlapping,
left-to-right) occurrence of `"www."`, not only a leading one. -/
def stripWWW : List Char → List Char
  | 'w' :: 'w' :: 'w' :: '.' :: rest => stripWWW rest
  | c :: rest => c :: stripWWW rest
  | [] => []

/-- Strip only a LEADING `"www."` (used by the spec-worded variant of the
classifier, for the refinement comparison). -/
def dropLeadingWWW : List Char → List Char
  | 'w' :: 'w' :: 'w' :: '.' :: rest => rest
  | s => s

/-- The domain the code classifies on: `urlparse(url).netloc.replace("www.", "")`. -/
def extractedDomainChars (url : String) : List Char :=
  stripWWW (netlocOf url.toList)

/-- Python's substring test `needle in hay`. -/
def containsSub (needle : List Char) : List Char → Bool
  | [] => needle.isEmpty
  | c :: rest => needle.isPrefixOf (c :: rest) || containsSub needle rest

/-! ## Configuration tables (`NEWS_MAP`, queries, `SINHALA_DOMAINS`) -/

/-- The `NEWS_MAP` dict; Python dicts iterate in declaration order, so it is
embedded as an ordered association list. -/
def NEWS_MAP : List (String × String) :=
  [("dailymirror.lk", "Daily Mirror"),
   ("ft.lk", "Daily FT"),
   ("sundayobserver.lk", "Sunday Observer"),
   ("sundaytimes.lk", "Sunday Times"),
   ("ceylontoday.lk", "Ceylon Today"),
   ("themorning.lk", "The Morning"),
   ("dailynews.lk", "Daily News"),
   ("island.lk", "The Island"),
   ("lankadeepa.lk", "Lanka Deepa"),
   ("mawbima.lk", "Maubima"),
   ("ada.lk", "Ada"),
   ("aruna.lk", "Aruna"),
   ("divaina.lk", "Divaina"),
   ("dinamina.lk", "Dinamina")]

def ENGLISH_QUERIES : List String := ["\"cargills\"", "\"cargils\""]

def SINHALA_QUERIES : List String := ["\"කාගිල්ස්\"", "\"කාගීල්ස්\""]

def SINHALA_DOMAINS : List String :=
  ["lankadeepa.lk", "mawbima.lk", "ada.lk", "aruna.lk", "divaina.lk", "dinamina.lk"]

/-! ## Classifier (`get_newspaper_name`, `get_language`) -/

/-- The `for key, name in NEWS_MAP.items(): if key in domain: return name`
loop body of `get_newspaper_name`. -/
def news_loop (domain : List Char) : List (String × String) → String
  | [] => "Unknown"
  | kv :: rest =>
    if containsSub kv.1.toList domain then kv.2 else news_loop domain rest

/-- `get_newspaper_name(url)` from `app.py`. -/
def get_newspaper_name (url : String) : String :=
  news_loop (extractedDomainChars url) NEWS_MAP

/-- The `for d in SINHALA_DOMAINS: if d in domain: return "Sinhala"` loop of
`get_language`. -/
def lang_loop (domain : List Char) : List String → String
  | [] => "English"
  | d :: rest =>
    if containsSub d.toList domain then "Sinhala" else lang_loop domain rest

/-- `get_language(url)` from `app.py`. -/
def get_language (url : String) : String :=
  lang_loop (extractedDomainChars url) SINHALA_DOMAINS

/-- The classifier as the spec words it ("extract the registrable domain
(strip a leading \"www.\"); return the first configured display name whose
domain key is a substring"): identical to `get_newspaper_name` except that
only a leading `"www."` is removed, where the code removes every occurrence.
Second definition for the refinement comparison of the Classifier claim. -/
def newspaper_for_spec (url : String) : String :=
  news_loop (dropLeadingWWW (netlocOf url.toList)) NEWS_MAP

/-! ## Raw search-result items and persisted articles

A raw CSE item is a JSON object; the code touches `link`, `title`,
`snippet` and `pagemap.metatags[0]["article:published_time"]`.  A metatag
object is an association list of string keys to string values. -/

deriving instance DecidableEq for Except

structure PageMap where
  metatags : Option (List (List (String × String)))
deriving DecidableEq

structure Item where
  link : Option String
  title : Option String
  snippet : Option String
  pagemap : Option PageMap
deriving DecidableEq

/-- A row of `press_articles`.  `created_at` is the store-assigned insertion
timestamp, modelled in hours as an integer (`timedelta(days=1)` = 24). -/
structure Article where
  newspaper : String
  language : String
  title : Option String
  url : String
  snippet : Option String
  query_used : String
  publish_date : String
  created_at : Int
deriving DecidableEq

/-- The `publish_date` extraction
`item.get("pagemap", {}).get("metatags", [{}])[0].get("article:published_time", "Unknown")`.
A missing `pagemap` or missing `metatags` key falls back to the `[{}]`
default; but a PRESENT and EMPTY `metatags` list makes the `[0]` index
raise `IndexError`, modelled as `Except.error`. -/
def publishDate (item : Item) : Except String String :=
  match item.pagemap with
  | none => Except.ok "Unknown"
  | some pm =>
    match pm.metatags with
    | none => Except.ok "Unknown"
    | some [] => Except.error "IndexError"
    | some (m :: _) => Except.ok ((m.lookup "article:published_time").getD "Unknown")

/-! ## Search Aggregator (`google_search`)

The `while True` pagination loop.  The external API is a function from the
`start` offset to `none` (response without an `"items"` key, or any
non-success that `r.json()` turns into such a body) or `some items`.  The
loop is given fuel, since the Python loop has no intrinsic bound; the list
of `start` offsets actually requested is returned alongside the results as
ghost instrumentation. -/

def googleSearchRun (api : Nat → Option (List Item)) :
    Nat → Nat → List Item → List Nat → List Item × List Nat
  | 0, _, acc, calls => (acc, calls)
  | fuel + 1, start, acc, calls =>
    match api start with
    | none => (acc, calls ++ [start])
    | some items =>
      if items.length < 10 then (acc ++ items, calls ++ [start])
      else googleSearchRun api fuel (start + 10) (acc ++ items) (calls ++ [start])

/-- `google_search(query, site)`: paginate from offset 1. -/
def google_search (api : Nat → Option (List Item)) (fuel : Nat) :
    List Item × List Nat :=
  googleSearchRun api fuel 1 [] []

/-! ## Ingestion pipeline (`run_scan_and_save`) -/

/-- Email subject of the manual-trigger path (the en-dash literal from the
code). -/
def manualSubject : String := "Cargills Press Monitoring – Manual Trigger"

/-- Email subject of the daily job. -/
def dailySubject : String := "Cargills Press Monitoring – Daily Report (Last 24 hours)"

/-- Outcome of the sweep over all (domain, query) pairs: either it finished,
or some step raised; either way it carries `new_articles` as accumulated so
far (the Python list survives the `except` clause). -/
inductive SweepOut where
  | ok (acc : List Article)
  | failed (acc : List Article)
deriving DecidableEq

def sweepOk : SweepOut → Bool
  | SweepOut.ok _ => true
  | SweepOut.failed _ => false

def sweepAcc : SweepOut → List Article
  | SweepOut.ok acc => acc
  | SweepOut.failed acc => acc

/-- The `(domain, query)` pairs visited by the sweep, in code order: outer
loop over `NEWS_MAP.keys()`, inner loop over the language-appropriate query
list. -/
def scanPairs : List (String × String) :=
  (NEWS_MAP.map Prod.fst).flatMap (fun domain =>
    (if SINHALA_DOMAINS.contains domain then SINHALA_QUERIES else ENGLISH_QUERIES).map
      (fun q => (domain, q)))

/-- The `PressArticle(...)` constructor call for a fresh item. -/
def mkArticle (now : Int) (query : String) (item : Item) (pd : String) : Article :=
  { newspaper := get_newspaper_name (item.link.getD ""),
    language := get_language (item.link.getD ""),
    title := item.title,
    url := item.link.getD "",
    snippet := item.snippet,
    query_used := query,
    publish_date := pd,
    created_at := now }

/-- The inner `for item in items` loop.  `stored` is the pre-scan table,
`acc` the pending `new_articles`; the dedup lookup
`session.query(PressArticle).filter_by(url=url).first()` sees both, because
the session autoflushes pending inserts before querying.  A `publishDate`
failure aborts the sweep with the partial accumulator. -/
def processItems (now : Int) (query : String) (stored : List Article) :
    List Item → List Article → SweepOut
  | [], acc => SweepOut.ok acc
  | item :: rest, acc =>
    if item.link.getD "" = "" then processItems now query stored rest acc
    else if (stored ++ acc).any (fun b => b.url == item.link.getD "") then
      processItems now query stored rest acc
    else
      match publishDate item with
      | Except.error _ => SweepOut.failed acc
      | Except.ok pd =>
        processItems now query stored rest (acc ++ [mkArticle now query item pd])

/-- The double loop over `scanPairs`; `search query domain` is the
`google_search` call, whose network failure (`requests.get` raising)
surfaces as `Except.error` and aborts the sweep. -/
def sweepPairs (search : String → String → Except String (List Item)) (now : Int)
    (stored : List Article) : List (String × String) → List Article → SweepOut
  | [], acc => SweepOut.ok acc
  | (domain, query) :: rest, acc =>
    match search query domain with
    | Except.error _ => SweepOut.failed acc
    | Except.ok items =>
      match processItems now query stored items acc with
      | SweepOut.failed acc2 => SweepOut.failed acc2
      | SweepOut.ok acc2 => sweepPairs search now stored rest acc2

/-- Result of one `run_scan_and_save` call: the table afterwards, the
function's return value, and the `send_email` invocation it made (records
and subject), if any. -/
structure ScanResult where
  store : List Article
  returned : List Article
  emailed : Option (List Article × String)
deriving DecidableEq

/-- `run_scan_and_save(send_email_immediate)`.  `commitOk` models whether
`session.commit()` succeeds; on any failure the transaction is rolled back
(the table is unchanged) — but the Python function still returns the
in-memory `new_articles` accumulated so far.  New rows get `created_at =
now` (the store's `datetime.utcnow` default at insert time). -/
def run_scan_and_save (search : String → String → Except String (List Item))
    (commitOk sendImmediate : Bool) (now : Int) (stored : List Article) :
    ScanResult :=
  match sweepPairs search now stored scanPairs [] with
  | SweepOut.failed acc =>
    { store := stored, returned := acc, emailed := none }
  | SweepOut.ok newArticles =>
    if commitOk then
      { store := stored ++ newArticles,
        returned := newArticles,
        emailed :=
          if sendImmediate && !newArticles.isEmpty then
            some (newArticles, manualSubject)
          else none }
    else
      { store := stored, returned := newArticles, emailed := none }

/-! ## Daily job (`daily_job`) -/

/-- Insert into a list kept sorted by `created_at` descending (model of the
store's `ORDER BY created_at DESC`). -/
def insertByCreatedDesc (a : Article) : List Article → List Article
  | [] => [a]
  | b :: rest =>
    if b.created_at ≤ a.created_at then a :: b :: rest
    else b :: insertByCreatedDesc a rest

def sortByCreatedDesc : List Article → List Article
  | [] => []
  | a :: rest => insertByCreatedDesc a (sortByCreatedDesc rest)

/-- The daily job's window query:
`created_at >= now_utc - 1 day AND created_at <= now_utc`, most recent
first (time modelled in hours). -/
def window_query (store : List Article) (now_utc : Int) : List Article :=
  sortByCreatedDesc
    (store.filter (fun a =>
      decide (now_utc - 24 ≤ a.created_at) && decide (a.created_at ≤ now_utc)))

/-- `daily_job()`: a silent scan (`send_email_immediate=False`), then the
24-hour window query on the resulting table; the digest `send_email` call
is made exactly when the window is non-empty.  Returns the table and the
digest invocation (records, subject), if any. -/
def daily_job (search : String → String → Except String (List Item))
    (commitOk : Bool) (scanNow now_utc : Int) (stored : List Article) :
    List Article × Option (List Article × String) :=
  ((run_scan_and_save search commitOk false scanNow stored).store,
   if (window_query (run_scan_and_save search commitOk false scanNow stored).store
        now_utc).isEmpty then
     none
   else
     some (window_query (run_scan_and_save search commitOk false scanNow stored).store
             now_utc,
           dailySubject))

/-! ## Digest notifier (`send_email`) -/

inductive SendOutcome where
  | skippedNoCreds
  | skippedEmpty
  | sent
  | errorLogged (msg : String)
deriving DecidableEq

/-- `if not EMAIL_USER or not EMAIL_PASS` — unset (`None`) and empty-string
credentials are both falsy. -/
def credsPresent (u p : Option String) : Bool :=
  (match u with | none => false | some s => !(s == "")) &&
  (match p with | none => false | some s => !(s == ""))

/-- The HTML table rows of the digest body; `a.publish_date or "Unknown"`
maps the empty string to `"Unknown"`. -/
def render_rows (articles : List Article) : String :=
  articles.foldl
    (fun s a =>
      s ++ "<tr><td>" ++ a.newspaper ++ "</td><td>" ++ a.language ++ "</td><td>"
        ++ (match a.title with | some t => t | none => "None") ++ "</td><td>"
        ++ (if a.publish_date = "" then "Unknown" else a.publish_date)
        ++ "</td><td>" ++ a.url ++ "</td></tr>")
    ""

/-- `send_email(articles, subject)`.  The SMTP transport is passed in as a
function of the rendered message; its failure is caught by the
`try/except` and only logged. -/
def send_email (u p : Option String) (transport : String → Except String Unit)
    (articles : List Article) (subject : String) : SendOutcome :=
  if credsPresent u p = false then SendOutcome.skippedNoCreds
  else if articles.isEmpty then SendOutcome.skippedEmpty
  else
    match transport (subject ++ render_rows articles) with
    | Except.ok _ => SendOutcome.sent
    | Except.error e => SendOutcome.errorLogged e

/-! ## Concrete fixtures used by witnesses and counterexamples -/

/-- A well-formed item (no `pagemap`, so `publish_date` defaults). -/
def itemA : Item :=
  { link := some "http://www.dailymirror.lk/a1", title := some "t",
    snippet := some "s", pagemap := none }

/-- The article the pipeline builds from `itemA` under query `"cargills"`
at time 0. -/
def artA : Article :=
  { newspaper := "Daily Mirror", language := "English", title := some "t",
    url := "http://www.dailymirror.lk/a1", snippet := some "s",
    query_used := "\"cargills\"", publish_date := "Unknown", created_at := 0 }

/-- Upstream results: one item on the very first (domain, query) pair,
nothing anywhere else. -/
def searchOne : String → String → Except String (List Item) :=
  fun q d =>
    if d = "dailymirror.lk" && q = "\"cargills\"" then Except.ok [itemA]
    else Except.ok []

/-- A good item followed by one whose `pagemap.metatags` is present but
empty (the `[0]` index raises on it). -/
def itemG : Item :=
  { link := some "http://www.ada.lk/good", title := some "g",
    snippet := none, pagemap := none }

def itemB : Item :=
  { link := some "http://www.ada.lk/bad", title := some "b",
    snippet := none, pagemap := some { metatags := some [] } }

def artG : Article :=
  { newspaper := "Ada", language := "Sinhala", title := some "g",
    url := "http://www.ada.lk/good", snippet := none,
    query_used := "\"cargills\"", publish_date := "Unknown", created_at := 0 }

def searchBad : String → String → Except String (List Item) :=
  fun q d =>
    if d = "dailymirror.lk" && q = "\"cargills\"" then Except.ok [itemG, itemB]
    else Except.ok []

/-- Upstream with no results at all. -/
def searchEmpty : String → String → Except String (List Item) :=
  fun _ _ => Except.ok []

/-- Stored records created 30, 23 and 1 hours before the reference time 0. -/
def art30 : Article :=
  { newspaper := "Ada", language := "Sinhala", title := none, url := "u30",
    snippet := none, query_used := "q", publish_date := "Unknown",
    created_at := -30 }

def art23 : Article :=
  { newspaper := "Ada", language := "Sinhala", title := none, url := "u23",
    snippet := none, query_used := "q", publish_date := "Unknown",
    created_at := -23 }

def art1 : Article :=
  { newspaper := "Ada", language := "Sinhala", title := none, url := "u1",
    snippet := none, query_used := "q", publish_date := "Unknown",
    created_at := -1 }

/-- A featureless raw item for the pagination fixtures. -/
def itm : Item := { link := none, title := none, snippet := none, pagemap := none }

/-- Fake API serving pages of sizes 10, 10, 7 at starts 1, 11, 21. -/
def api0 : Nat → Option (List Item) :=
  fun s =>
    if s = 1 then some (List.replicate 10 itm)
    else if s = 11 then some (List.replicate 10 itm)
    else if s = 21 then some (List.replicate 7 itm)
    else none

/-- Fake API whose first page has no `items` key. -/
def apiNone : Nat → Option (List Item) := fun _ => none

/-! ## Helper lemmas about the sweep -/

/-- `new_articles` only ever grows during the item loop. -/
theorem processItems_sub (now : Int) (q : String) (stored : List Article)
    (items : List Item) :
    ∀ (acc : List Article) (a : Article), a ∈ acc →
      a ∈ sweepAcc (processItems now q stored items acc) := by
  induction items with
  | nil => intro acc a ha; simpa [processItems, sweepAcc] using ha
  | cons item rest ih =>
    intro acc a ha
    unfold processItems
    split
    · exact ih acc a ha
    · split
      · exact ih acc a ha
      · split
        · simpa [sweepAcc] using ha
        · exact ih _ a (List.mem_append_left _ ha)

/-- `new_articles` only ever grows during the pair loop. -/
theorem sweepPairs_sub (search : String → String → Except String (List Item))
    (now : Int) (stored : List Article) (pairs : List (String × String)) :
    ∀ (acc : List Article) (a : Article), a ∈ acc →
      a ∈ sweepAcc (sweepPairs search now stored pairs acc) := by
  induction pairs with
  | nil => intro acc a ha; simpa [sweepPairs, sweepAcc] using ha
  | cons dq rest ih =>
    intro acc a ha
    obtain ⟨d, q⟩ := dq
    unfold sweepPairs
    split
    · simpa [sweepAcc] using ha
    · rename_i items _
      have h2 := processItems_sub now q stored items acc a ha
      split
      · rename_i acc2 heq
        rw [heq] at h2
        simpa [sweepAcc] using h2
      · rename_i acc2 heq
        rw [heq] at h2
        exact ih acc2 a (by simpa [sweepAcc] using h2)

/-- After a successful pass over `items`, every item with a link has its URL
represented in the table-plus-batch. -/
theorem processItems_covers (now : Int) (q : String) (stored : List Article)
    (items : List Item) :
    ∀ (acc acc2 : List Article),
      processItems now q stored items acc = SweepOut.ok acc2 →
      ∀ item ∈ items, item.link.getD "" = "" ∨
        ∃ a ∈ stored ++ acc2, a.url = item.link.getD "" := by
  induction items with
  | nil => intro acc acc2 h item hmem; cases hmem
  | cons it rest ih =>
    intro acc acc2 h item hmem
    unfold processItems at h
    split at h
    · rename_i h1
      rcases List.mem_cons.mp hmem with rfl | hmem2
      · exact Or.inl h1
      · exact ih acc acc2 h item hmem2
    · split at h
      · rename_i h1 h2
        rcases List.mem_cons.mp hmem with rfl | hmem2
        · right
          obtain ⟨b, hb, hbeq⟩ := List.any_eq_true.mp h2
          refine ⟨b, ?_, eq_of_beq hbeq⟩
          rcases List.mem_append.mp hb with hbs | hba
          · exact List.mem_append_left _ hbs
          · have := processItems_sub now q stored rest acc b hba
            rw [h] at this
            exact List.mem_append_right _ (by simpa [sweepAcc] using this)
        · exact ih acc acc2 h item hmem2
      · split at h
        · cases h
        · rename_i h1 h2 pd hpd
          rcases List.mem_cons.mp hmem with rfl | hmem2
          · right
            have hmemb : mkArticle now q item pd ∈ acc ++ [mkArticle now q item pd] :=
              List.mem_append_right _ (List.mem_singleton.mpr rfl)
            have := processItems_sub now q stored rest _ _ hmemb
            rw [h] at this
            exact ⟨mkArticle now q item pd,
                   List.mem_append_right _ (by simpa [sweepAcc] using this), rfl⟩
          · exact ih _ acc2 h item hmem2

/-- After a successful sweep, every (domain, query) pair returned
successfully and every item it returned has its URL in the
table-plus-batch (or no link). -/
theorem sweepPairs_covers (search : String → String → Except String (List Item))
    (now : Int) (stored : List Article) (pairs : List (String × String)) :
    ∀ (acc acc2 : List Article),
      sweepPairs search now stored pairs acc = SweepOut.ok acc2 →
      ∀ dq ∈ pairs, ∃ items, search dq.2 dq.1 = Except.ok items ∧
        ∀ item ∈ items, item.link.getD "" = "" ∨
          ∃ a ∈ stored ++ acc2, a.url = item.link.getD "" := by
  induction pairs with
  | nil => intro acc acc2 h dq hmem; cases hmem
  | cons hd rest ih =>
    intro acc acc2 h dq hmem
    obtain ⟨d, q⟩ := hd
    unfold sweepPairs at h
    split at h
    · cases h
    · rename_i items hs
      split at h
      · cases h
      · rename_i accMid hp
        rcases List.mem_cons.mp hmem with rfl | hmem2
        · refine ⟨items, hs, ?_⟩
          intro item hit
          rcases processItems_covers now q stored items acc accMid hp item hit with
            h1 | ⟨a, ha, hurl⟩
          · exact Or.inl h1
          · right
            refine ⟨a, ?_, hurl⟩
            rcases List.mem_append.mp ha with has | ham
            · exact List.mem_append_left _ has
            · have := sweepPairs_sub search now stored rest accMid a ham
              rw [h] at this
              exact List.mem_append_right _ (by simpa [sweepAcc] using this)
        · exact ih accMid acc2 h dq hmem2

/-- If every item of `items` is linkless or already present in the table,
the item loop adds nothing. -/
theorem processItems_skip (now : Int) (q : String) (stored2 : List Article)
    (items : List Item)
    (hall : ∀ item ∈ items, item.link.getD "" = "" ∨
      ∃ a ∈ stored2, a.url = item.link.getD "") :
    processItems now q stored2 items [] = SweepOut.ok [] := by
  induction items with
  | nil => rfl
  | cons it rest ih =>
    have hrest : ∀ item ∈ rest, item.link.getD "" = "" ∨
        ∃ a ∈ stored2, a.url = item.link.getD "" :=
      fun item hm => hall item (List.mem_cons_of_mem _ hm)
    unfold processItems
    rcases hall it (List.mem_cons_self it rest) with h1 | ⟨a, ha, hurl⟩
    · rw [if_pos h1]
      exact ih hrest
    · by_cases h1 : it.link.getD "" = ""
      · rw [if_pos h1]
        exact ih hrest
      · rw [if_neg h1]
        have hany : (stored2 ++ []).any (fun b => b.url == it.link.getD "") = true := by
          rw [List.append_nil]
          exact List.any_eq_true.mpr ⟨a, ha, by simp [hurl]⟩
        rw [if_pos hany]
        exact ih hrest

/-- If every item every pair returns is linkless or already present in the
table, the whole sweep succeeds with an empty batch. -/
theorem sweepPairs_skip (search : String → String → Except String (List Item))
    (now : Int) (stored2 : List Article) (pairs : List (String × String))
    (hall : ∀ dq ∈ pairs, ∃ items, search dq.2 dq.1 = Except.ok items ∧
      ∀ item ∈ items, item.link.getD "" = "" ∨
        ∃ a ∈ stored2, a.url = item.link.getD "") :
    sweepPairs search now stored2 pairs [] = SweepOut.ok [] := by
  induction pairs with
  | nil => rfl
  | cons hd rest ih =>
    obtain ⟨d, q⟩ := hd
    obtain ⟨items, hs, hitems⟩ := hall (d, q) (List.mem_cons_self _ rest)
    have hp := processItems_skip now q stored2 items hitems
    unfold sweepPairs
    simp only [hs, hp]
    exact ih (fun dq hm => hall dq (List.mem_cons_of_mem _ hm))

/-- Invariant of the pending batch: its URLs are pairwise distinct and
disjoint from the pre-scan table. -/
def pendingOK (stored acc : List Article) : Prop :=
  (acc.map Article.url).Nodup ∧ ∀ a ∈ acc, ∀ b ∈ stored, b.url ≠ a.url

theorem processItems_pendingOK (now : Int) (q : String) (stored : List Article)
    (items : List Item) :
    ∀ (acc : List Article), pendingOK stored acc →
      pendingOK stored (sweepAcc (processItems now q stored items acc)) := by
  induction items with
  | nil => intro acc h; simpa [processItems, sweepAcc] using h
  | cons it rest ih =>
    intro acc h
    unfold processItems
    split
    · exact ih acc h
    · rename_i hlink
      split
      · exact ih acc h
      · rename_i hany
        split
        · simpa [sweepAcc] using h
        · rename_i pd hpd
          refine ih _ ⟨?_, ?_⟩
          · rw [List.map_append]
            refine List.Nodup.append h.1 (by simp) ?_
            intro u hu hu2
            simp only [List.map_cons, List.map_nil, List.mem_singleton] at hu2
            obtain ⟨a, ha, haurl⟩ := List.mem_map.mp hu
            have : (stored ++ acc).any (fun b => b.url == it.link.getD "") = true :=
              List.any_eq_true.mpr ⟨a, List.mem_append_right _ ha, by
                simp [haurl, hu2, mkArticle]⟩
            exact absurd this hany
          · intro a ha b hb
            rcases List.mem_append.mp ha with ha1 | ha2
            · exact h.2 a ha1 b hb
            · have ha3 : a = mkArticle now q it pd := by
                simpa using ha2
              subst ha3
              intro hurl
              have : (stored ++ acc).any (fun b => b.url == it.link.getD "") = true :=
                List.any_eq_true.mpr ⟨b, List.mem_append_left _ hb, by
                  simp [hurl, mkArticle]⟩
              exact absurd this hany

theorem sweepPairs_pendingOK (search : String → String → Except String (List Item))
    (now : Int) (stored : List Article) (pairs : List (String × String)) :
    ∀ (acc : List Article), pendingOK stored acc →
      pendingOK stored (sweepAcc (sweepPairs search now stored pairs acc)) := by
  induction pairs with
  | nil => intro acc h; simpa [sweepPairs, sweepAcc] using h
  | cons hd rest ih =>
    intro acc h
    obtain ⟨d, q⟩ := hd
    unfold sweepPairs
    split
    · simpa [sweepAcc] using h
    · rename_i items _
      have h2 := processItems_pendingOK now q stored items acc h
      split
      · rename_i acc2 heq
        rw [heq] at h2
        simpa [sweepAcc] using h2
      · rename_i acc2 heq
        rw [heq] at h2
        exact ih acc2 (by simpa [sweepAcc] using h2)

/-- The scan's return value is always the sweep accumulator (committed or
not). -/
theorem run_returned (search : String → String → Except String (List Item))
    (commitOk im : Bool) (now : Int) (stored : List Article) :
    (run_scan_and_save search commitOk im now stored).returned =
      sweepAcc (sweepPairs search now stored scanPairs []) := by
  unfold run_scan_and_save
  cases heq : sweepPairs search now stored scanPairs [] with
  | failed acc => simp [heq, sweepAcc]
  | ok acc => cases commitOk <;> simp [heq, sweepAcc]

/-! ## Helper lemmas about the classifier loops -/

/-- First-match characterization of the `NEWS_MAP` lookup loop. -/
theorem news_loop_first (domain : List Char) (l : List (String × String)) :
    (news_loop domain l = "Unknown" ∧
       ∀ kv ∈ l, containsSub kv.1.toList domain = false) ∨
    (∃ pre kv post, l = pre ++ kv :: post ∧
       news_loop domain l = kv.2 ∧
       containsSub kv.1.toList domain = true ∧
       ∀ kv2 ∈ pre, containsSub kv2.1.toList domain = false) := by
  induction l with
  | nil => exact Or.inl ⟨rfl, by intro kv h; cases h⟩
  | cons kv rest ih =>
    have hstep : news_loop domain (kv :: rest) =
        (if containsSub kv.1.toList domain then kv.2 else news_loop domain rest) := rfl
    by_cases hc : containsSub kv.1.toList domain = true
    · right
      exact ⟨[], kv, rest, rfl, by rw [hstep, if_pos hc], hc, by intro kv2 h; cases h⟩
    · have hc2 : containsSub kv.1.toList domain = false := by
        simpa using hc
      have hs2 : news_loop domain (kv :: rest) = news_loop domain rest := by
        rw [hstep, if_neg hc]
      rcases ih with ⟨h1, h2⟩ | ⟨pre, kv1, post, hsplit, hval, hmatch, hpre⟩
      · left
        refine ⟨by rw [hs2]; exact h1, ?_⟩
        intro kv2 h
        rcases List.mem_cons.mp h with rfl | h3
        · exact hc2
        · exact h2 kv2 h3
      · right
        refine ⟨kv :: pre, kv1, post, by rw [hsplit]; rfl, by rw [hs2]; exact hval,
                hmatch, ?_⟩
        intro kv2 h
        rcases List.mem_cons.mp h with rfl | h3
        · exact hc2
        · exact hpre kv2 h3

/-- The language loop yields `"Sinhala"` exactly on a Sinhala-domain match. -/
theorem lang_loop_sinhala (domain : List Char) (l : List String) :
    lang_loop domain l = "Sinhala" ↔
      ∃ d ∈ l, containsSub d.toList domain = true := by
  induction l with
  | nil =>
    constructor
    · intro h
      have h2 : ("English" : String) = "Sinhala" := h
      exact absurd h2 (by decide)
    · rintro ⟨d, hd, -⟩; cases hd
  | cons d rest ih =>
    have hstep : lang_loop domain (d :: rest) =
        (if containsSub d.toList domain then "Sinhala" else lang_loop domain rest) := rfl
    by_cases hc : containsSub d.toList domain = true
    · rw [hstep, if_pos hc]
      constructor
      · intro _; exact ⟨d, List.mem_cons_self _ _, hc⟩
      · intro _; rfl
    · rw [hstep, if_neg hc, ih]
      constructor
      · rintro ⟨d2, hd2, hm⟩
        exact ⟨d2, List.mem_cons_of_mem _ hd2, hm⟩
      · rintro ⟨d2, hd2, hm⟩
        rcases List.mem_cons.mp hd2 with rfl | h3
        · exact absurd hm hc
        · exact ⟨d2, h3, hm⟩

/-- The language loop only ever yields the two configured values. -/
theorem lang_loop_total (domain : List Char) (l : List String) :
    lang_loop domain l = "English" ∨ lang_loop domain l = "Sinhala" := by
  induction l with
  | nil => exact Or.inl rfl
  | cons d rest ih =>
    have hstep : lang_loop domain (d :: rest) =
        (if containsSub d.toList domain then "Sinhala" else lang_loop domain rest) := rfl
    by_cases hc : containsSub d.toList domain = true
    · rw [hstep, if_pos hc]; exact Or.inr rfl
    · rw [hstep, if_neg hc]; exact ih

/-! ## Helper lemmas about the window query ordering -/

theorem mem_insertByCreatedDesc (b : Article) (l : List Article) (a : Article) :
    a ∈ insertByCreatedDesc b l ↔ a = b ∨ a ∈ l := by
  induction l with
  | nil => simp [insertByCreatedDesc]
  | cons c rest ih =>
    unfold insertByCreatedDesc
    split
    · simp [List.mem_cons]
    · simp only [List.mem_cons, ih]
      tauto

theorem mem_sortByCreatedDesc (l : List Article) (a : Article) :
    a ∈ sortByCreatedDesc l ↔ a ∈ l := by
  induction l with
  | nil => simp [sortByCreatedDesc]
  | cons c rest ih =>
    simp only [sortByCreatedDesc, mem_insertByCreatedDesc, ih, List.mem_cons]

theorem pairwise_insertByCreatedDesc (b : Article) (l : List Article)
    (h : List.Pairwise (fun x y => y.created_at ≤ x.created_at) l) :
    List.Pairwise (fun x y => y.created_at ≤ x.created_at)
      (insertByCreatedDesc b l) := by
  induction l with
  | nil => simp [insertByCreatedDesc]
  | cons c rest ih =>
    rw [List.pairwise_cons] at h
    unfold insertByCreatedDesc
    split
    · rename_i hle
      rw [List.pairwise_cons]
      refine ⟨?_, List.pairwise_cons.mpr h⟩
      intro y hy
      rcases List.mem_cons.mp hy with rfl | hy2
      · exact hle
      · exact le_trans (h.1 y hy2) hle
    · rename_i hgt
      rw [List.pairwise_cons]
      refine ⟨?_, ih h.2⟩
      intro y hy
      rcases (mem_insertByCreatedDesc b rest y).mp hy with rfl | hy2
      · exact le_of_lt (lt_of_not_le hgt)
      · exact h.1 y hy2

theorem pairwise_sortByCreatedDesc (l : List Article) :
    List.Pairwise (fun x y => y.created_at ≤ x.created_at)
      (sortByCreatedDesc l) := by
  induction l with
  | nil => simp [sortByCreatedDesc]
  | cons c rest ih => exact pairwise_insertByCreatedDesc c _ ih

/-! ## Claim C7 — `get_newspaper_name` -/

/-- Claim C7 counterexample: the code does NOT merely strip a leading
`"www."` — `str.replace("www.", "")` removes every occurrence.  At
`http://wwft.www.lk/a` the host is `wwft.www.lk`; the code collapses it to
`wwft.lk`, which the key `ft.lk` matches, giving "Daily FT", while the
spec's procedure (strip only a leading `"www."`) leaves `wwft.www.lk` and
matches nothing, giving "Unknown". -/
theorem C7_counterexample :
    get_newspaper_name "http://wwft.www.lk/a" = "Daily FT" ∧
    newspaper_for_spec "http://wwft.www.lk/a" = "Unknown" ∧
    get_newspaper_name "http://wwft.www.lk/a" ≠
      newspaper_for_spec "http://wwft.www.lk/a" := by
  decide

/-- Claim C7 (amended): `get_newspaper_name` extracts the host, removes
EVERY occurrence of `"www."` (not only a leading one), and returns the
display name of the first `NEWS_MAP` pair in declaration order whose key is
a substring of the resulting domain, or "Unknown" when no key matches. -/
theorem C7_first_match (url : String) :
    (get_newspaper_name url = "Unknown" ∧
       ∀ kv ∈ NEWS_MAP, containsSub kv.1.toList (extractedDomainChars url) = false) ∨
    (∃ pre kv post, NEWS_MAP = pre ++ kv :: post ∧
       get_newspaper_name url = kv.2 ∧
       containsSub kv.1.toList (extractedDomainChars url) = true ∧
       ∀ kv2 ∈ pre, containsSub kv2.1.toList (extractedDomainChars url) = false) :=
  news_loop_first (extractedDomainChars url) NEWS_MAP

/-- Witness: the first-match characterization instantiated at a concrete
URL. -/
theorem C7_first_match_witness :
    (get_newspaper_name "http://www.ada.lk/x" = "Unknown" ∧
       ∀ kv ∈ NEWS_MAP,
         containsSub kv.1.toList (extractedDomainChars "http://www.ada.lk/x") = false) ∨
    (∃ pre kv post, NEWS_MAP = pre ++ kv :: post ∧
       get_newspaper_name "http://www.ada.lk/x" = kv.2 ∧
       containsSub kv.1.toList (extractedDomainChars "http://www.ada.lk/x") = true ∧
       ∀ kv2 ∈ pre,
         containsSub kv2.1.toList (extractedDomainChars "http://www.ada.lk/x") = false) :=
  C7_first_match "http://www.ada.lk/x"

/-! ## Claim C8 — `get_language` -/

/-- Claim C8: `get_language` always returns exactly one of
"English"/"Sinhala", and returns "Sinhala" iff the extracted domain
contains an entry of `SINHALA_DOMAINS`. -/
theorem C8_language_partition (url : String) :
    (get_language url = "English" ∨ get_language url = "Sinhala") ∧
    ¬(get_language url = "English" ∧ get_language url = "Sinhala") ∧
    (get_language url = "Sinhala" ↔
      ∃ d ∈ SINHALA_DOMAINS, containsSub d.toList (extractedDomainChars url) = true) := by
  refine ⟨lang_loop_total _ _, ?_, lang_loop_sinhala _ _⟩
  rintro ⟨h1, h2⟩
  have h3 : ("English" : String) = "Sinhala" := h1.symm.trans h2
  exact absurd h3 (by decide)

/-- Witness: the language partition at a concrete Sinhala-domain URL. -/
theorem C8_language_partition_witness :
    (get_language "http://www.ada.lk/x" = "English" ∨
       get_language "http://www.ada.lk/x" = "Sinhala") ∧
    ¬(get_language "http://www.ada.lk/x" = "English" ∧
       get_language "http://www.ada.lk/x" = "Sinhala") ∧
    (get_language "http://www.ada.lk/x" = "Sinhala" ↔
      ∃ d ∈ SINHALA_DOMAINS,
        containsSub d.toList (extractedDomainChars "http://www.ada.lk/x") = true) :=
  C8_language_partition "http://www.ada.lk/x"

/-! ## Claim C4 — `google_search` pagination -/

/-- Claim C4: pagination starts at offset 1 and advances by 10 after each
full page; a page with no `items` key ends the loop after that single
call with everything accumulated so far, a short page (fewer than 10
items) ends it including that page, and for pages of sizes 10, 10, 7 the
aggregator returns their 27-item concatenation using exactly the three
calls at starts 1, 11, 21. -/
theorem C4_pagination (api : Nat → Option (List Item)) (fuel : Nat)
    (l1 l2 l3 : List Item) :
    (api 1 = none → 1 ≤ fuel → google_search api fuel = ([], [1])) ∧
    (api 1 = some l1 → l1.length < 10 → 1 ≤ fuel →
        google_search api fuel = (l1, [1])) ∧
    (api 1 = some l1 → l1.length = 10 → api 11 = some l2 → l2.length = 10 →
        api 21 = some l3 → l3.length = 7 → 3 ≤ fuel →
        google_search api fuel = (l1 ++ l2 ++ l3, [1, 11, 21])) := by
  refine ⟨?_, ?_, ?_⟩
  · intro h1 hf
    match fuel, hf with
    | fuel + 1, _ => simp [google_search, googleSearchRun, h1]
  · intro h1 hlen hf
    match fuel, hf with
    | fuel + 1, _ => simp [google_search, googleSearchRun, h1, hlen]
  · intro h1 hl1 h2 hl2 h3 hl3 hf
    match fuel, hf with
    | fuel + 3, _ =>
      simp [google_search, googleSearchRun, h1, hl1, h2, hl2, h3, hl3]

/-- Witness: the two fixture APIs (pages 10/10/7, and a first page with no
items). -/
theorem C4_pagination_witness :
    google_search api0 5 =
      (List.replicate 10 itm ++ List.replicate 10 itm ++ List.replicate 7 itm,
       [1, 11, 21]) ∧
    google_search apiNone 5 = ([], [1]) :=
  ⟨(C4_pagination api0 5 (List.replicate 10 itm) (List.replicate 10 itm)
        (List.replicate 7 itm)).2.2 rfl (by decide) rfl (by decide) rfl (by decide)
        (by decide),
   (C4_pagination apiNone 5 [] [] []).1 rfl (by decide)⟩

/-! ## Claim C9 — `send_email` never raises -/

/-- Claim C9: the notifier is a no-op (and independent of the transport,
i.e. makes no network call) when credentials are unconfigured or the
record list is empty; a transport error is caught and mapped to a logged
outcome; and every invocation yields one of the four outcomes — nothing
propagates to the caller. -/
theorem C9_no_raise (u p : Option String) (transport : String → Except String Unit)
    (articles : List Article) (subject : String) :
    (credsPresent u p = false →
        send_email u p transport articles subject = SendOutcome.skippedNoCreds ∧
        ∀ t2, send_email u p t2 articles subject =
          send_email u p transport articles subject) ∧
    (articles = [] → credsPresent u p = true →
        send_email u p transport articles subject = SendOutcome.skippedEmpty ∧
        ∀ t2, send_email u p t2 articles subject =
          send_email u p transport articles subject) ∧
    (∀ e, transport (subject ++ render_rows articles) = Except.error e →
        credsPresent u p = true → articles ≠ [] →
        send_email u p transport articles subject = SendOutcome.errorLogged e) ∧
    (send_email u p transport articles subject = SendOutcome.skippedNoCreds ∨
     send_email u p transport articles subject = SendOutcome.skippedEmpty ∨
     send_email u p transport articles subject = SendOutcome.sent ∨
     ∃ e, send_email u p transport articles subject = SendOutcome.errorLogged e) := by
  refine ⟨?_, ?_, ?_, ?_⟩
  · intro h
    constructor
    · simp [send_email, h]
    · intro t2; simp [send_email, h]
  · intro he h
    subst he
    constructor
    · simp [send_email, h]
    · intro t2; simp [send_email, h]
  · intro e herr h hne
    have hie : articles.isEmpty = false := by
      cases articles with
      | nil => exact absurd rfl hne
      | cons a rest => rfl
    simp [send_email, h, hie, herr]
  · by_cases h : credsPresent u p = false
    · exact Or.inl (by simp [send_email, h])
    · have h1 : credsPresent u p = true := by simpa using h
      by_cases he : articles.isEmpty = true
      · exact Or.inr (Or.inl (by simp [send_email, h1, he]))
      · have he2 : articles.isEmpty = false := by simpa using he
        cases htr : transport (subject ++ render_rows articles) with
        | ok v =>
          refine Or.inr (Or.inr (Or.inl ?_))
          simp [send_email, h1, he2, htr]
        | error e =>
          refine Or.inr (Or.inr (Or.inr ⟨e, ?_⟩))
          simp [send_email, h1, he2, htr]

/-- Witness: unconfigured credentials are a silent no-op. -/
theorem C9_no_raise_witness :
    send_email none none (fun _ => Except.ok ()) [] "s" =
      SendOutcome.skippedNoCreds :=
  ((C9_no_raise none none (fun _ => Except.ok ()) [] "s").1 rfl).1

/-! ## Claim C1 — failure handling of `run_scan_and_save` -/

/-- Claim C1 counterexample: with one discovered article and a failing
commit, the rollback leaves the table empty, yet `run_scan_and_save`
returns the non-empty in-memory list (the Python `except` clause does not
clear `new_articles`), so the function does NOT return the empty list on
failure. -/
theorem C1_counterexample :
    (run_scan_and_save searchOne false false 0 []).store = [] ∧
    (run_scan_and_save searchOne false false 0 []).returned = [artA] ∧
    (run_scan_and_save searchOne false false 0 []).returned ≠ [] := by
  decide

/-- Claim C1 (amended): on any failure during the sweep or at commit, the
whole pending batch is rolled back — the table is unchanged and no
immediate email is sent — but the function returns the in-memory list of
articles accumulated up to the failure point, which can be non-empty; only
the set of persisted records is unchanged. -/
theorem C1_rollback_keeps_partial_list
    (search : String → String → Except String (List Item))
    (commitOk im : Bool) (now : Int) (stored : List Article)
    (h : sweepOk (sweepPairs search now stored scanPairs []) = false ∨
      commitOk = false) :
    (run_scan_and_save search commitOk im now stored).store = stored ∧
    (run_scan_and_save search commitOk im now stored).emailed = none ∧
    (run_scan_and_save search commitOk im now stored).returned =
      sweepAcc (sweepPairs search now stored scanPairs []) := by
  unfold run_scan_and_save
  cases heq : sweepPairs search now stored scanPairs [] with
  | failed acc => simp [heq, sweepAcc]
  | ok acc =>
    rcases h with h | h
    · rw [heq] at h
      simp [sweepOk] at h
    · subst h
      simp [heq, sweepAcc]

/-- Witness: the failing-commit run from the counterexample input, through
the amended theorem. -/
theorem C1_rollback_witness :
    (run_scan_and_save searchOne false false 0 []).store = [] ∧
    (run_scan_and_save searchOne false false 0 []).emailed = none ∧
    (run_scan_and_save searchOne false false 0 []).returned =
      sweepAcc (sweepPairs searchOne 0 [] scanPairs []) :=
  C1_rollback_keeps_partial_list searchOne false false 0 [] (Or.inr rfl)

/-! ## Claim C2 — malformed items -/

/-- Claim C2 counterexample: an item whose `pagemap.metatags` is present
but EMPTY makes the `[0]` index raise (`IndexError`) instead of defaulting
`publish_date` to "Unknown", and that exception aborts the whole batch:
the valid article discovered before it is rolled back (`store = []`). -/
theorem C2_counterexample :
    publishDate itemB = Except.error "IndexError" ∧
    publishDate itemB ≠ Except.ok "Unknown" ∧
    (run_scan_and_save searchBad true false 0 []).store = [] ∧
    (run_scan_and_save searchBad true false 0 []).returned = [artG] := by
  decide

/-- Claim C2 (amended): an item with no link (absent or empty) is skipped
individually; `publish_date` defaults to "Unknown" when `pagemap` is
absent, when the `metatags` key is absent, and when the first metatag
lacks `article:published_time` — but when `metatags` is present and empty,
the extraction raises `IndexError` (which aborts the batch). -/
theorem C2_malformed_items (item : Item) (now : Int) (q : String)
    (stored acc : List Article) (rest : List Item) :
    (item.link = none ∨ item.link = some "" →
        processItems now q stored (item :: rest) acc =
          processItems now q stored rest acc) ∧
    (item.pagemap = none → publishDate item = Except.ok "Unknown") ∧
    (∀ pm, item.pagemap = some pm → pm.metatags = none →
        publishDate item = Except.ok "Unknown") ∧
    (∀ pm m ms, item.pagemap = some pm → pm.metatags = some (m :: ms) →
        m.lookup "article:published_time" = none →
        publishDate item = Except.ok "Unknown") ∧
    (∀ pm, item.pagemap = some pm → pm.metatags = some [] →
        publishDate item = Except.error "IndexError") := by
  refine ⟨?_, ?_, ?_, ?_, ?_⟩
  · intro h
    have hl : item.link.getD "" = "" := by
      rcases h with h | h <;> rw [h] <;> rfl
    have hstep : processItems now q stored (item :: rest) acc =
        (if item.link.getD "" = "" then processItems now q stored rest acc
         else if (stored ++ acc).any (fun b => b.url == item.link.getD "") then
           processItems now q stored rest acc
         else
           match publishDate item with
           | Except.error _ => SweepOut.failed acc
           | Except.ok pd =>
             processItems now q stored rest (acc ++ [mkArticle now q item pd])) := rfl
    rw [hstep, if_pos hl]
  · intro h
    simp [publishDate, h]
  · intro pm h1 h2
    simp [publishDate, h1, h2]
  · intro pm m ms h1 h2 h3
    simp [publishDate, h1, h2, h3]
  · intro pm h1 h2
    simp [publishDate, h1, h2]

/-- Witness: the empty-`metatags` fixture raises, via the amended theorem. -/
theorem C2_malformed_witness :
    publishDate itemB = Except.error "IndexError" :=
  (C2_malformed_items itemB 0 "q" [] [] []).2.2.2.2 { metatags := some [] } rfl rfl

/-! ## Claim C10 — URL uniqueness inside one batch -/

/-- Claim C10: the batch built by one scan never contains two records with
the same URL, and none of its URLs equals a URL already stored before the
scan — each raw item whose URL is already visible (stored, or pending in
the same sweep) is discarded before insertion. -/
theorem C10_batch_urls_unique
    (search : String → String → Except String (List Item))
    (commitOk im : Bool) (now : Int) (stored : List Article) :
    ((run_scan_and_save search commitOk im now stored).returned.map
        Article.url).Nodup ∧
    ∀ a ∈ (run_scan_and_save search commitOk im now stored).returned,
      ∀ b ∈ stored, b.url ≠ a.url := by
  have h0 : pendingOK stored [] := ⟨List.nodup_nil, by intro a ha; cases ha⟩
  have h1 := sweepPairs_pendingOK search now stored scanPairs [] h0
  rw [← run_returned search commitOk im now stored] at h1
  exact h1

/-- Witness: batch URL uniqueness on the one-article fixture run. -/
theorem C10_batch_urls_unique_witness :
    ((run_scan_and_save searchOne true false 0 []).returned.map
        Article.url).Nodup ∧
    ∀ a ∈ (run_scan_and_save searchOne true false 0 []).returned,
      ∀ b ∈ ([] : List Article), b.url ≠ a.url :=
  C10_batch_urls_unique searchOne true false 0 []

/-! ## Claim C6 — manual trigger -/

/-- Claim C6 counterexample: the manual-trigger email is sent with subject
"Cargills Press Monitoring – Manual Trigger", not "Manual Trigger" as the
claim states. -/
theorem C6_counterexample :
    (run_scan_and_save searchOne true true 0 []).emailed =
      some ([artA], manualSubject) ∧
    manualSubject ≠ "Manual Trigger" := by
  decide

/-- Claim C6 (amended): with the immediate-notify flag set, the notifier is
invoked iff the sweep succeeded, the commit succeeded and the scan produced
new records; it is invoked synchronously with subject
"Cargills Press Monitoring – Manual Trigger" and with exactly the batch
just inserted (the committed records), not a time-window query. -/
theorem C6_manual_trigger
    (search : String → String → Except String (List Item))
    (commitOk : Bool) (now : Int) (stored : List Article) :
    (run_scan_and_save search commitOk true now stored).emailed =
      (if sweepOk (sweepPairs search now stored scanPairs []) && commitOk
          && !(run_scan_and_save search commitOk true now stored).returned.isEmpty then
         some ((run_scan_and_save search commitOk true now stored).returned,
               manualSubject)
       else none) ∧
    (∀ recs subj,
        (run_scan_and_save search commitOk true now stored).emailed =
          some (recs, subj) →
        subj = manualSubject ∧
        (run_scan_and_save search commitOk true now stored).store = stored ++ recs ∧
        recs ≠ []) := by
  unfold run_scan_and_save
  cases heq : sweepPairs search now stored scanPairs [] with
  | failed acc =>
    refine ⟨by simp [heq, sweepOk], ?_⟩
    intro recs subj h
    cases h
  | ok acc =>
    cases commitOk with
    | false =>
      refine ⟨by simp [heq, sweepOk], ?_⟩
      intro recs subj h
      simp at h
    | true =>
      constructor
      · simp [heq, sweepOk]
      · intro recs subj h
        by_cases he : acc.isEmpty = true
        · simp [heq, he] at h
        · have he2 : acc.isEmpty = false := by simpa using he
          simp [heq, he2] at h
          obtain ⟨h1, h2⟩ := h
          subst h1
          subst h2
          refine ⟨rfl, by simp [heq, he2], ?_⟩
          intro hnil
          rw [hnil] at he2
          cases he2

/-- Witness: the committed one-article manual run, through the amended
theorem. -/
theorem C6_manual_trigger_witness :
    (run_scan_and_save searchOne true true 0 []).emailed =
      (if sweepOk (sweepPairs searchOne 0 [] scanPairs []) && true
          && !(run_scan_and_save searchOne true true 0 []).returned.isEmpty then
         some ((run_scan_and_save searchOne true true 0 []).returned,
               manualSubject)
       else none) :=
  (C6_manual_trigger searchOne true 0 []).1

/-! ## Claim C3 — back-to-back idempotence -/

/-- Claim C3: when a scan sweep succeeds and commits a batch, running the
same scan again against unchanged upstream results adds nothing: the batch
URLs were pairwise fresh (so each URL is inserted at most once overall),
the second run returns the empty list, and the table is unchanged by the
second run — every item's URL is already in the store and is skipped by the
dedup lookup. -/
theorem C3_scan_idempotent
    (search : String → String → Except String (List Item))
    (now1 now2 : Int) (stored newArts : List Article) (im : Bool)
    (h : sweepPairs search now1 stored scanPairs [] = SweepOut.ok newArts) :
    (run_scan_and_save search true im now1 stored).store = stored ++ newArts ∧
    (newArts.map Article.url).Nodup ∧
    (run_scan_and_save search true false now2 (stored ++ newArts)).returned = [] ∧
    (run_scan_and_save search true false now2 (stored ++ newArts)).store =
      stored ++ newArts := by
  have hcov := sweepPairs_covers search now1 stored scanPairs [] newArts h
  have hsweep2 : sweepPairs search now2 (stored ++ newArts) scanPairs [] =
      SweepOut.ok [] := by
    refine sweepPairs_skip search now2 (stored ++ newArts) scanPairs ?_
    intro dq hdq
    obtain ⟨items, hs, hitems⟩ := hcov dq hdq
    exact ⟨items, hs, hitems⟩
  have hnodup : pendingOK stored newArts := by
    have h0 : pendingOK stored [] := ⟨List.nodup_nil, by intro a ha; cases ha⟩
    have h1 := sweepPairs_pendingOK search now1 stored scanPairs [] h0
    rw [h] at h1
    simpa [sweepAcc] using h1
  refine ⟨?_, hnodup.1, ?_, ?_⟩
  · unfold run_scan_and_save
    simp [h]
  · unfold run_scan_and_save
    simp [hsweep2]
  · unfold run_scan_and_save
    simp [hsweep2]

/-- Witness: the one-article fixture committed once, then rescanned. -/
theorem C3_scan_idempotent_witness :
    (run_scan_and_save searchOne true false 0 []).store = [] ++ [artA] ∧
    ([artA].map Article.url).Nodup ∧
    (run_scan_and_save searchOne true false 1 ([] ++ [artA])).returned = [] ∧
    (run_scan_and_save searchOne true false 1 ([] ++ [artA])).store =
      [] ++ [artA] :=
  C3_scan_idempotent searchOne 0 1 [] [artA] false (by decide)

/-! ## Claim C5 — the daily job's 24-hour window -/

/-- Claim C5 counterexample: the windowing itself behaves as claimed (with
stored records at T-30h, T-23h, T-1h the digest carries exactly the T-1h
and T-23h records, most recent first), but the subject used is
"Cargills Press Monitoring – Daily Report (Last 24 hours)", not
"Daily Report (Last 24 hours)" as the claim states. -/
theorem C5_counterexample :
    (daily_job searchEmpty true 0 0 [art30, art23, art1]).2 =
      some ([art1, art23], dailySubject) ∧
    dailySubject ≠ "Daily Report (Last 24 hours)" := by
  decide

/-- Claim C5 (amended): the daily job scans silently (no immediate email),
then queries exactly the records whose `created_at` lies in the trailing
24 hours ending now (boundary inclusive both ends), ordered most recent
first, and passes that result to the notifier iff it is non-empty, with
subject "Cargills Press Monitoring – Daily Report (Last 24 hours)";
otherwise it skips the email. -/
theorem C5_daily_window
    (search : String → String → Except String (List Item))
    (commitOk : Bool) (scanNow now : Int) (stored store : List Article) :
    (run_scan_and_save search commitOk false scanNow stored).emailed = none ∧
    (∀ a, a ∈ window_query store now ↔
        a ∈ store ∧ now - 24 ≤ a.created_at ∧ a.created_at ≤ now) ∧
    List.Pairwise (fun x y => y.created_at ≤ x.created_at)
      (window_query store now) ∧
    (daily_job search commitOk scanNow now stored).2 =
      (if (window_query (run_scan_and_save search commitOk false scanNow stored).store
            now).isEmpty then none
       else
         some (window_query
                 (run_scan_and_save search commitOk false scanNow stored).store now,
               dailySubject)) := by
  refine ⟨?_, ?_, pairwise_sortByCreatedDesc _, rfl⟩
  · unfold run_scan_and_save
    cases heq : sweepPairs search scanNow stored scanPairs [] with
    | failed acc => simp [heq]
    | ok acc => cases commitOk <;> simp [heq]
  · intro a
    unfold window_query
    rw [mem_sortByCreatedDesc, List.mem_filter]
    simp

/-- Witness: the three-record window fixture, through the amended theorem. -/
theorem C5_daily_window_witness :
    (run_scan_and_save searchEmpty true false 0 []).emailed = none ∧
    (daily_job searchEmpty true 0 0 [art30, art23, art1]).2 =
      (if (window_query
            (run_scan_and_save searchEmpty true false 0 [art30, art23, art1]).store
            0).isEmpty then none
       else
         some (window_query
                 (run_scan_and_save searchEmpty true false 0 [art30, art23, art1]).store
                 0,
               dailySubject)) :=
  ⟨(C5_daily_window searchEmpty true 0 0 [] []).1,
   (C5_daily_window searchEmpty true 0 0 [art30, art23, art1] []).2.2.2⟩

end Cargills
